import Mathlib

/-!
Verification of the homer orchestration core: a shallow embedding of the
state models, reducers and pipeline nodes of the three langgraph pipelines
(conversational retrieval, report generation, document indexing), together
with proofs of the behavioural properties claimed for them.

The embedding follows the source files
`src/core/states.py`, `src/core/graphs/retrieval_graph.py`,
`src/core/graphs/report_graph.py` and `src/core/graphs/index_graph.py`.
External collaborators (chat model, embedding retriever, document loader,
file system) are passed in as explicit oracle arguments; the graph
executor's merge step (each node returns a partial update that is folded
into the state field by field, using the field's configured reducer and
plain replacement for fields without one) is made explicit as an `apply`
function per state type.
-/

namespace Homer

/-- Message role (`human` / `assistant` / `system`), as in langchain messages. -/
inductive Role where
  | human
  | assistant
  | system
deriving Repr, DecidableEq

/-- A chat message: role, identity used by the merge-by-id reducer, and text. -/
structure Message where
  role : Role
  id : String
  content : String
deriving Repr, DecidableEq

/-- A langchain `Document`: a text chunk plus string metadata. -/
structure Doc where
  page_content : String
  metadata : List (String × String)
deriving Repr, DecidableEq

/-- One merge step of the `add_messages` reducer: a message whose id matches an
existing one replaces it in place, otherwise it is appended. -/
def addOneMessage (l : List Message) (m : Message) : List Message :=
  if l.any (fun x => x.id = m.id) then
    l.map (fun x => if x.id = m.id then m else x)
  else
    l ++ [m]

/-- The `add_messages` reducer on the `messages` channel: merge the new
messages into the existing list one by one, by id. -/
def add_messages (left right : List Message) : List Message :=
  right.foldl addOneMessage left


/-!
Report pipeline (`src/core/graphs/report_graph.py` over the `ReportState`
schema of `src/core/states.py`).

`ReportState` declares exactly the fields `messages`, `outlines`, `report`,
`retrieved_docs` and `current_section_index`.  The node functions also
mention `state.number_of_parts`, `state.writing_style` and
`state.raw_section_content`, none of which exist on the dataclass, so those
reads raise `AttributeError` inside the nodes' `try` blocks; likewise the
keys `report_header`, `writing_style` and `raw_section_content` that nodes
return are not state fields, so the executor's merge step has no channel to
write them to and they are discarded.  The embedding reflects both facts.

`outlines` holds the list of section titles that `generate_outline` stores
in it (a list of strings at run time), `report` uses the `add_sections`
reducer (append), and the remaining fields replace on write.
-/

/-- One `{title, content}` entry of the generated report. -/
structure ReportSection where
  title : String
  content : String
deriving Repr, DecidableEq

/-- The `ReportState` dataclass of `src/core/states.py`. -/
structure ReportState where
  messages : List Message
  outlines : List String
  report : List ReportSection
  retrieved_docs : List Doc
  current_section_index : Nat
deriving Repr, DecidableEq

/-- The `add_sections` reducer of the `report` field: append the new
sections after the existing ones. -/
def add_sections (existing new : List ReportSection) : List ReportSection :=
  existing ++ new

/-- A partial state update returned by a report-graph node; `none` (or `[]`
for the appended `report` sections) means the node did not write the field. -/
structure ReportUpdate where
  outlines : Option (List String) := none
  reportSections : List ReportSection := []
  retrieved_docs : Option (List Doc) := none
  current_section_index : Option Nat := none
deriving Repr, DecidableEq

/-- The executor's merge step for the report graph: every written field is
folded into the state with its reducer (`add_sections` for `report`,
replacement for the rest). -/
def applyReport (s : ReportState) (u : ReportUpdate) : ReportState :=
  { messages := s.messages
    outlines := u.outlines.getD s.outlines
    report := add_sections s.report u.reportSections
    retrieved_docs := u.retrieved_docs.getD s.retrieved_docs
    current_section_index := u.current_section_index.getD s.current_section_index }

/-- `initial_retrieval`: store the retriever's answer in `retrieved_docs`;
any failure of the embedding model or retriever is caught and degraded to an
empty list.  The oracle `o` is the external retrieval outcome (`none` for a
raised exception). -/
def initial_retrieval (o : Option (List Doc)) : ReportUpdate :=
  { retrieved_docs := some (o.getD []) }

/-- The fallback outline built in the `except` branch of `generate_outline`. -/
def fallbackOutline : List String := ["Report Section"]

/-- The fallback report header built in the `except` branch of
`generate_outline`.  `report_header` is not a field of `ReportState`, so
this value is discarded by the merge step; it is kept here because its text
is what signals the outline failure. -/
def fallbackHeader : String := "TECHNICAL REPORT\nTITLE: Error in outline generation\n\n"

/-- `generate_outline`: the `try` block reads `state.number_of_parts` (and
`state.writing_style`) before invoking the model, and `ReportState` has no
such field, so every call raises `AttributeError` and runs the `except`
branch: the single-entry fallback outline with `current_section_index = 0`
(the returned `report_header` and `writing_style` keys have no state field
and are discarded).  The successful branch of the source would likewise
return the generated entries with `current_section_index = 0`. -/
def generate_outline (_s : ReportState) : ReportUpdate :=
  { outlines := some fallbackOutline
    current_section_index := some 0 }

/-- `retrieve_for_section`: empty result when the outline list is empty or
`current_section_index` is out of range, otherwise the retriever's answer
for the current section title (`o`, with `none` for a raised exception
degraded to an empty list). -/
def retrieve_for_section (s : ReportState) (o : Option (List Doc)) : ReportUpdate :=
  if s.outlines = [] then
    { retrieved_docs := some [] }
  else if s.outlines.length ≤ s.current_section_index then
    { retrieved_docs := some [] }
  else
    { retrieved_docs := some (o.getD []) }

/-- `synthesize_section`: every branch of the source returns only the key
`raw_section_content` (the `try` block additionally raises on the missing
`state.writing_style` field before reaching the model), and
`raw_section_content` is not a field of `ReportState`, so the merge step
discards the whole update: the node is a no-op on the state. -/
def synthesize_section (_s : ReportState) : ReportUpdate := {}

/-- `review_section`: after the two bounds guards (empty outlines, index out
of range) return an empty update, the body reads the missing
`state.raw_section_content` field, so every guarded-through call ends in the
`except` branch, which appends one `{title, content}` section and sets
`current_section_index` to its successor.  `configOk` tells whether the
configuration lookup succeeded (when it raises, `current_section` is not yet
bound and the fallback title `"Error"` is used); `e` is the rendered
exception text. -/
def review_section (s : ReportState) (configOk : Bool) (e : String) : ReportUpdate :=
  if s.outlines = [] then
    {}
  else if s.outlines.length ≤ s.current_section_index then
    {}
  else if configOk then
    { reportSections :=
        [{ title := s.outlines.getD s.current_section_index ""
           content := "Error reviewing section: " ++ e }]
      current_section_index := some (s.current_section_index + 1) }
  else
    { reportSections := [{ title := "Error", content := "Error reviewing section: " ++ e }]
      current_section_index := some (s.current_section_index + 1) }

/-- Result of the conditional edge after `review_section`. -/
inductive ReportNext where
  | retrieve_for_section
  | halt
deriving Repr, DecidableEq

/-- `should_continue`: halt when the outline list is empty or
`current_section_index` has reached its length, otherwise loop back to
`retrieve_for_section`. -/
def should_continue (s : ReportState) : ReportNext :=
  if s.outlines = [] then
    .halt
  else if s.outlines.length ≤ s.current_section_index then
    .halt
  else
    .retrieve_for_section

/-- The external outcomes consumed by one pass of the section loop. -/
structure LoopOracle where
  sectionDocs : Option (List Doc)
  reviewConfigOk : Bool
  reviewErr : String
deriving Repr, DecidableEq

/-- One pass of the section loop:
`retrieve_for_section` then `synthesize_section` then `review_section`,
with the executor merging each node's update into the state. -/
def runBody (s : ReportState) (o : LoopOracle) : ReportState :=
  let s1 := applyReport s (retrieve_for_section s o.sectionDocs)
  let s2 := applyReport s1 (synthesize_section s1)
  applyReport s2 (review_section s2 o.reviewConfigOk o.reviewErr)

/-- The section loop of the report graph.  The first pass is entered
unconditionally (edge `generate_outline → retrieve_for_section`); after each
pass `should_continue` decides between another pass and halting.  `fuel`
bounds the recursion; a `some (s, n)` result means the loop halted in state
`s` after exactly `n` passes (`none` means the fuel ran out first). -/
def runLoop : Nat → ReportState → (Nat → LoopOracle) → Option (ReportState × Nat)
  | 0, _, _ => none
  | fuel + 1, s, os =>
    let s1 := runBody s (os 0)
    match should_continue s1 with
    | .halt => some (s1, 1)
    | .retrieve_for_section =>
      (runLoop fuel s1 (fun k => os (k + 1))).map (fun p => (p.1, p.2 + 1))

/-- The whole report pipeline: `initial_retrieval`, `generate_outline`,
then the section loop (with fuel one more than the outline length). -/
def runReport (init : ReportState) (initDocs : Option (List Doc))
    (os : Nat → LoopOracle) : Option (ReportState × Nat) :=
  let s1 := applyReport init (initial_retrieval initDocs)
  let s2 := applyReport s1 (generate_outline s1)
  runLoop (s2.outlines.length + 1) s2 os

/-- The section that `review_section` appends once its bounds guards have
passed (the body then always ends in the `except` branch, see
`review_section`). -/
def reviewedSection (s : ReportState) (configOk : Bool) (e : String) : ReportSection :=
  if configOk then
    { title := s.outlines.getD s.current_section_index ""
      content := "Error reviewing section: " ++ e }
  else
    { title := "Error", content := "Error reviewing section: " ++ e }


/-!
Conversational retrieval pipeline (`src/core/graphs/retrieval_graph.py` over
the `RetrievalState` schema of `src/core/states.py`).

`RetrievalState.retrieved_docs` is a plain `list[Document]` field with no
reducer annotation, so its channel replaces on write: whatever value a node
returns for `retrieved_docs` becomes the field's value.  Since
`rephrase_query` returns either the string `"delete"` or an empty list for
that key, the channel value is either a document list or that string; the
sum type `RDocsVal` captures the two shapes.
-/

/-- Value held by the `retrieved_docs` channel of the retrieval graph: a
document list, or the raw string a node wrote to it. -/
inductive RDocsVal where
  | docs (l : List Doc)
  | strval (s : String)
deriving Repr, DecidableEq

/-- Python truthiness of a `retrieved_docs` value (`if state.retrieved_docs`). -/
def RDocsVal.truthy : RDocsVal → Bool
  | .docs l => !l.isEmpty
  | .strval s => !s.isEmpty

/-- The `RetrievalState` dataclass of `src/core/states.py` (`messages` with
the `add_messages` reducer; `query`, `retrieved_docs` and `summary` plain). -/
structure RetrievalState where
  messages : List Message
  query : String
  retrieved_docs : RDocsVal
  summary : String
deriving Repr, DecidableEq

/-- A partial state update returned by a retrieval-graph node. -/
structure RetrievalUpdate where
  messages : List Message := []
  query : Option String := none
  retrieved_docs : Option RDocsVal := none
  summary : Option String := none
deriving Repr, DecidableEq

/-- The executor's merge step for the retrieval graph: `messages` through
the `add_messages` reducer, every other written field by replacement. -/
def applyRetrieval (s : RetrievalState) (u : RetrievalUpdate) : RetrievalState :=
  { messages := add_messages s.messages u.messages
    query := u.query.getD s.query
    retrieved_docs := u.retrieved_docs.getD s.retrieved_docs
    summary := u.summary.getD s.summary }

/-- `rephrase_query`: `o` is the structured-output model call (`some q` when
it produced a query, `none` when it raised, including when the prompt could
not be assembled).  On failure the raw latest message content (or
`"general search"` for an empty history) is the fallback query.  In both
branches the node writes `"delete"` to `retrieved_docs` when the current
value is truthy and an empty list otherwise. -/
def rephrase_query (s : RetrievalState) (o : Option String) : RetrievalUpdate :=
  let q := match o with
    | some g => g
    | none =>
      match s.messages.getLast? with
      | some m => m.content
      | none => "general search"
  { query := some q
    retrieved_docs := some (if s.retrieved_docs.truthy then .strval "delete" else .docs []) }

/-- The fixed apology message content of `respond`'s fallback branch. -/
def apologyText : String :=
  "I apologize, but I encountered an error while generating a response. Please try rephrasing your question."

/-- `respond`: `o` is the generation model call, returning the id and
content of the produced assistant message (`none` when any step of the
`try` block raised).  The node returns exactly one message — the model's
answer, or the fixed apology `AIMessage` (with fresh id `fid`) — and writes
an empty list to `retrieved_docs` and an empty string to `query`. -/
def respond (_s : RetrievalState) (o : Option (String × String)) (fid : String) :
    RetrievalUpdate :=
  { messages := [match o with
      | some p => { role := .assistant, id := p.1, content := p.2 }
      | none => { role := .assistant, id := fid, content := apologyText }]
    retrieved_docs := some (.docs [])
    query := some "" }

/-- Result of the conditional edge after `respond`. -/
inductive SummarizeNext where
  | summarize_conversation
  | halt
deriving Repr, DecidableEq

/-- `should_summarize`: summarize exactly when the message count is a
multiple of 6. -/
def should_summarize (s : RetrievalState) : SummarizeNext :=
  if s.messages.length % 6 = 0 then .summarize_conversation else .halt

/-!
Index pipeline (`src/core/graphs/index_graph.py`) and the `reduce_docs`
reducer of `IndexState.docs` (`src/core/states.py`).
-/

/-- An element of a list assigned to a docs field: an actual `Document`, a
raw string, or a record of field values (`Document(**item)`). -/
inductive DocItem where
  | docv (d : Doc)
  | strv (s : String)
  | dictv (page_content : String) (metadata : List (String × String))
deriving Repr, DecidableEq

/-- A value assigned to a docs field: a raw string (including the sentinel
`"delete"`), a list of items, or anything else (`otherv`). -/
inductive DocsAssign where
  | strval (s : String)
  | listval (items : List DocItem)
  | otherv
deriving Repr, DecidableEq

/-- Coercion of one list element inside `reduce_docs`: strings become
documents with a fresh id (`ids i` models the i-th generated uuid), records
are unpacked, documents pass through. -/
def coerceItem (ids : Nat → String) (i : Nat) : DocItem → Doc
  | .docv d => d
  | .strv s => { page_content := s, metadata := [("id", ids i)] }
  | .dictv c m => { page_content := c, metadata := m }

/-- The `reduce_docs` reducer of `src/core/states.py`: the string
`"delete"` yields an empty collection, another string is coerced to a
single document, a list is coerced element by element (and is the entire
result), and any other value keeps the existing documents. -/
def reduce_docs (existing : Option (List Doc)) (new : DocsAssign) (ids : Nat → String) :
    List Doc :=
  match new with
  | .strval s =>
    if s = "delete" then []
    else [{ page_content := s, metadata := [("id", ids 0)] }]
  | .listval items => items.enum.map (fun p => coerceItem ids p.1 p.2)
  | .otherv => existing.getD []

/-- `RecursiveCharacterTextSplitter.split_documents`: split each document's
content with the external splitter and give every produced chunk a copy of
its parent document's metadata. -/
def split_documents (split : String → List String) (docs : List Doc) : List Doc :=
  docs.flatMap (fun d => (split d.page_content).map
    (fun c => { page_content := c, metadata := d.metadata }))

/-- The per-file body of `parse_pdfs`'s loop after a successful load: split
the loaded documents into chunks, then overwrite the metadata of the FIRST
chunk with `{"source": file}` (the `document[0].metadata = ...` line).  An
empty chunk list makes that line raise `IndexError`, which the per-file
handler turns into skipping the file (`none`). -/
def processChunks (file : String) (chunks : List Doc) : Option (List Doc) :=
  match chunks with
  | [] => none
  | d0 :: rest => some ({ d0 with metadata := [("source", file)] } :: rest)

/-- `remove_duplicates` of `src/utils/utils.py`: keep the new items that are
not in the base list. -/
def remove_duplicates (base new : List String) : List String :=
  new.filter (fun item => !base.contains item)

/-- The directory listing seen by `parse_pdfs`: whether `state.path` names a
directory, and the `*.pdf` files inside it. -/
structure FileSystem where
  isDir : Bool
  pdfFiles : List String
deriving Repr, DecidableEq

/-- External collaborators of `parse_pdfs`: the sources already present in
the vector store, the per-file document loader (`.error` when loading — or
building the loader — raises), and the chunk splitter. -/
structure ParseEnv where
  existingSources : List String
  load : String → Except String (List Doc)
  split : String → List String

/-- Errors that escape `parse_pdfs` (its outer handler re-raises them). -/
inductive ParseError where
  | fileNotFound (msg : String)
deriving Repr, DecidableEq

/-- `parse_pdfs`: raise `FileNotFoundError` unless the path is a directory;
otherwise drop the already-indexed files, and for each remaining file load
and split it, skipping the file (`continue`) when its loader raises or it
yields no chunks. -/
def parse_pdfs (path : String) (fs : FileSystem) (env : ParseEnv) :
    Except ParseError (List Doc) :=
  if !fs.isDir then
    .error (.fileNotFound ("Directory not found: " ++ path))
  else
    .ok ((remove_duplicates env.existingSources fs.pdfFiles).flatMap (fun f =>
      match env.load f with
      | .error _ => []
      | .ok docs => (processChunks f (split_documents env.split docs)).getD []))

/-- Modelled from the spec: `make_batch`, imported by
`src/core/graphs/index_graph.py` from `src/utils/utils.py` but absent from
that module, "partitions the chunk collection into fixed-size batches"
(batching 97 chunks at batch size 20 yields sizes 20, 20, 20, 20, 17). -/
def make_batch (l : List Doc) (size : Nat) : List (List Doc) :=
  if size = 0 then []
  else (List.range ((l.length + size - 1) / size)).map (fun i => (l.drop (i * size)).take size)

/-- Outcome of one `retriever.add_documents` batch write. -/
inductive WriteOutcome where
  | ok
  | err (msg : String)
deriving Repr, DecidableEq

/-- The batch loop of `index_docs`: add the batches in order; the first
failing write re-raises and aborts the loop. -/
def addBatches (write : Nat → WriteOutcome) : Nat → List (List Doc) → Except String Unit
  | _, [] => .ok ()
  | i, _ :: rest =>
    match write i with
    | .ok => addBatches write (i + 1) rest
    | .err m => .error m

/-- `index_docs`: raise unless a configuration is present, partition the
docs into batches of 20, add each batch (re-raising on the first failure),
and only after every batch succeeded return the update `{"docs": "delete"}`
— the clear sentinel of the `reduce_docs` reducer. -/
def index_docs (configOk : Bool) (docs : List Doc) (write : Nat → WriteOutcome) :
    Except String DocsAssign :=
  if !configOk then .error "Configuration required to run index_docs."
  else
    match addBatches write 0 (make_batch docs 20) with
    | .ok _ => .ok (.strval "delete")
    | .error m => .error m

theorem addOneMessage_fresh (l : List Message) (m : Message)
    (h : ∀ x ∈ l, x.id ≠ m.id) : addOneMessage l m = l ++ [m] := by
  have hfalse : (l.any fun x => x.id = m.id) = false := by
    simp only [List.any_eq_false, decide_eq_true_eq]
    exact h
  rw [addOneMessage, hfalse]
  simp

theorem add_messages_single_fresh (l : List Message) (m : Message)
    (h : ∀ x ∈ l, x.id ≠ m.id) : add_messages l [m] = l ++ [m] := by
  unfold add_messages
  simpa using addOneMessage_fresh l m h

theorem applyReport_empty (s : ReportState) : applyReport s {} = s := by
  simp [applyReport, add_sections]

theorem applyReport_retrieve (s : ReportState) (o : Option (List Doc))
    (hne : s.outlines ≠ []) (hlt : s.current_section_index < s.outlines.length) :
    applyReport s (retrieve_for_section s o) = { s with retrieved_docs := o.getD [] } := by
  rw [retrieve_for_section, if_neg hne, if_neg (by omega)]
  simp [applyReport, add_sections]

theorem applyReport_review (s : ReportState) (configOk : Bool) (e : String)
    (hne : s.outlines ≠ []) (hlt : s.current_section_index < s.outlines.length) :
    applyReport s (review_section s configOk e) =
      { s with report := s.report ++ [reviewedSection s configOk e]
               current_section_index := s.current_section_index + 1 } := by
  rw [review_section, if_neg hne, if_neg (by omega)]
  by_cases hc : configOk = true
  · rw [if_pos hc]
    simp [applyReport, add_sections, reviewedSection, hc, List.getD]
  · rw [if_neg hc]
    simp [applyReport, add_sections, reviewedSection, hc]

theorem runBody_eq (s : ReportState) (o : LoopOracle)
    (hne : s.outlines ≠ []) (hlt : s.current_section_index < s.outlines.length) :
    runBody s o =
      { s with retrieved_docs := o.sectionDocs.getD []
               report := s.report ++ [reviewedSection
                 { s with retrieved_docs := o.sectionDocs.getD [] } o.reviewConfigOk o.reviewErr]
               current_section_index := s.current_section_index + 1 } := by
  simp only [runBody]
  rw [applyReport_retrieve s o.sectionDocs hne hlt]
  rw [show synthesize_section { s with retrieved_docs := o.sectionDocs.getD [] } = {} from rfl]
  rw [applyReport_empty]
  rw [applyReport_review _ o.reviewConfigOk o.reviewErr (by simpa using hne) (by simpa using hlt)]

theorem runBody_outlines (s : ReportState) (o : LoopOracle)
    (hne : s.outlines ≠ []) (hlt : s.current_section_index < s.outlines.length) :
    (runBody s o).outlines = s.outlines := by
  rw [runBody_eq s o hne hlt]

theorem runBody_index (s : ReportState) (o : LoopOracle)
    (hne : s.outlines ≠ []) (hlt : s.current_section_index < s.outlines.length) :
    (runBody s o).current_section_index = s.current_section_index + 1 := by
  rw [runBody_eq s o hne hlt]

theorem runBody_report (s : ReportState) (o : LoopOracle)
    (hne : s.outlines ≠ []) (hlt : s.current_section_index < s.outlines.length) :
    (runBody s o).report.length = s.report.length + 1 := by
  rw [runBody_eq s o hne hlt]
  simp

theorem should_continue_halt (s : ReportState)
    (h : s.outlines.length ≤ s.current_section_index) : should_continue s = .halt := by
  unfold should_continue
  by_cases h1 : s.outlines = []
  · rw [if_pos h1]
  · rw [if_neg h1, if_pos h]

theorem should_continue_cont (s : ReportState) (hne : s.outlines ≠ [])
    (hlt : s.current_section_index < s.outlines.length) :
    should_continue s = .retrieve_for_section := by
  unfold should_continue
  rw [if_neg hne, if_neg (by omega)]

theorem should_continue_iff (s : ReportState) :
    should_continue s = .retrieve_for_section ↔
      s.outlines ≠ [] ∧ s.current_section_index < s.outlines.length := by
  constructor
  · intro h
    by_cases h1 : s.outlines = []
    · rw [should_continue, if_pos h1] at h
      exact absurd h (by simp)
    · by_cases h2 : s.outlines.length ≤ s.current_section_index
      · rw [should_continue_halt s h2] at h
        exact absurd h (by simp)
      · exact ⟨h1, by omega⟩
  · rintro ⟨hne, hlt⟩
    exact should_continue_cont s hne hlt

/-- The section loop, entered with a non-empty outline list and the index
strictly inside it, halts after exactly `len - index` further passes; the
outline list is unchanged, the final index equals the outline length, and
each pass appended exactly one section to the report. -/
theorem runLoop_exact (fuel : Nat) : ∀ (s : ReportState) (os : Nat → LoopOracle),
    s.outlines ≠ [] → s.current_section_index < s.outlines.length →
    s.outlines.length - s.current_section_index ≤ fuel →
    ∃ sf, runLoop fuel s os = some (sf, s.outlines.length - s.current_section_index) ∧
      sf.outlines = s.outlines ∧
      sf.current_section_index = s.outlines.length ∧
      sf.report.length = s.report.length + (s.outlines.length - s.current_section_index) := by
  induction fuel with
  | zero =>
    intro s os hne hlt hfuel
    omega
  | succ fuel ih =>
    intro s os hne hlt hfuel
    have hout := runBody_outlines s (os 0) hne hlt
    have hidx := runBody_index s (os 0) hne hlt
    have hrep := runBody_report s (os 0) hne hlt
    by_cases hend : s.outlines.length ≤ s.current_section_index + 1
    · have hsc : should_continue (runBody s (os 0)) = .halt := by
        apply should_continue_halt
        rw [hout, hidx]
        omega
      refine ⟨runBody s (os 0), ?_, hout, ?_, ?_⟩
      · have hone : s.outlines.length - s.current_section_index = 1 := by omega
        simp only [runLoop, hsc, hone]
      · rw [hidx]; omega
      · rw [hrep]; omega
    · have hne1 : (runBody s (os 0)).outlines ≠ [] := by rw [hout]; exact hne
      have hlt1 : (runBody s (os 0)).current_section_index < (runBody s (os 0)).outlines.length := by
        rw [hout, hidx]; omega
      have hfuel1 : (runBody s (os 0)).outlines.length -
          (runBody s (os 0)).current_section_index ≤ fuel := by
        rw [hout, hidx]; omega
      obtain ⟨sf, hrun, ho, hi, hr⟩ := ih (runBody s (os 0)) (fun k => os (k + 1)) hne1 hlt1 hfuel1
      have hsc := should_continue_cont _ hne1 hlt1
      refine ⟨sf, ?_, ?_, ?_, ?_⟩
      · have hcount : (runBody s (os 0)).outlines.length -
            (runBody s (os 0)).current_section_index + 1 =
            s.outlines.length - s.current_section_index := by
          rw [hout, hidx]; omega
        simp only [runLoop, hsc, hrun, Option.map_some', hcount]
      · rw [ho, hout]
      · rw [hi, hout]
      · rw [hr, hrep, hout, hidx]; omega

/-! Helper lemmas about the embedded pipelines. -/

theorem runBody_stuck (s : ReportState) (o : LoopOracle)
    (h : s.outlines = [] ∨ s.outlines.length ≤ s.current_section_index) :
    runBody s o = { s with retrieved_docs := [] } := by
  have hre : retrieve_for_section s o.sectionDocs = { retrieved_docs := some [] } := by
    unfold retrieve_for_section
    rcases h with h | h
    · rw [if_pos h]
    · by_cases h1 : s.outlines = []
      · rw [if_pos h1]
      · rw [if_neg h1, if_pos h]
  have h1 : applyReport s { retrieved_docs := some [] } = { s with retrieved_docs := [] } := by
    simp [applyReport, add_sections]
  have hrv : review_section { s with retrieved_docs := ([] : List Doc) }
      o.reviewConfigOk o.reviewErr = {} := by
    unfold review_section
    rcases h with h | h
    · rw [if_pos (by simpa using h)]
    · by_cases h2 : s.outlines = []
      · rw [if_pos (by simpa using h2)]
      · rw [if_neg (by simpa using h2), if_pos (by simpa using h)]
  simp only [runBody, hre, h1]
  rw [show synthesize_section { s with retrieved_docs := ([] : List Doc) } = {} from rfl,
    applyReport_empty, hrv, applyReport_empty]

/-- Running the whole report pipeline: `generate_outline` always installs the
one-entry fallback outline with index 0, so the section loop makes exactly
one pass and appends exactly one section. -/
theorem runReport_run (init : ReportState) (initDocs : Option (List Doc))
    (os : Nat → LoopOracle) :
    ∃ sf, runReport init initDocs os = some (sf, 1) ∧ sf.outlines = fallbackOutline ∧
      sf.current_section_index = 1 ∧ sf.report.length = init.report.length + 1 := by
  have hrep : (applyReport (applyReport init (initial_retrieval initDocs))
      (generate_outline (applyReport init (initial_retrieval initDocs)))).report
      = init.report := by
    simp [applyReport, initial_retrieval, generate_outline, add_sections]
  obtain ⟨sf, hrun, ho, hi, hr⟩ :=
    runLoop_exact
      ((applyReport (applyReport init (initial_retrieval initDocs))
        (generate_outline (applyReport init (initial_retrieval initDocs)))).outlines.length + 1)
      (applyReport (applyReport init (initial_retrieval initDocs))
        (generate_outline (applyReport init (initial_retrieval initDocs))))
      os (by simp [applyReport, generate_outline, fallbackOutline])
      (by simp [applyReport, generate_outline, fallbackOutline])
      (by simp [applyReport, generate_outline, fallbackOutline])
  refine ⟨sf, ?_, ?_, ?_, ?_⟩
  · simpa [runReport, applyReport, generate_outline, fallbackOutline] using hrun
  · simpa [applyReport, generate_outline] using ho
  · simpa [applyReport, generate_outline, fallbackOutline] using hi
  · rw [hr, hrep]
    simp [applyReport, generate_outline, fallbackOutline]

theorem addBatches_ok_iff (write : Nat → WriteOutcome) :
    ∀ (bs : List (List Doc)) (i : Nat),
      addBatches write i bs = .ok () ↔ ∀ j, j < bs.length → write (i + j) = .ok := by
  intro bs
  induction bs with
  | nil => intro i; simp [addBatches]
  | cons b rest ih =>
    intro i
    constructor
    · intro h j hj
      rw [addBatches] at h
      cases hw : write i with
      | ok =>
        rw [hw] at h
        cases j with
        | zero => simpa using hw
        | succ j =>
          have := (ih (i + 1)).mp h j (by simpa using hj)
          simpa [Nat.add_assoc, Nat.add_comm 1 j] using this
      | err m => rw [hw] at h; exact absurd h (by simp)
    · intro h
      rw [addBatches]
      have h0 : write i = .ok := by simpa using h 0 (by simp)
      rw [h0]
      refine (ih (i + 1)).mpr ?_
      intro j hj
      have := h (j + 1) (by simpa using hj)
      simpa [Nat.add_assoc, Nat.add_comm 1 j] using this

/-! The claims. -/

/-- Claim C1: the report pipeline's section loop terminates after exactly
`len(outlines)` iterations.  `should_continue` answers
`retrieve_for_section` exactly while the outline list is non-empty and
`current_section_index` is below its length and halts otherwise; every loop
pass taken under that guard increases the index by exactly one; and from any
post-outline state (non-empty outlines, index 0) the loop halts after
exactly `len(outlines)` passes through `review_section`. -/
theorem c1_section_loop_terminates :
    (∀ s : ReportState, should_continue s = .retrieve_for_section ↔
      s.outlines ≠ [] ∧ s.current_section_index < s.outlines.length) ∧
    (∀ (s : ReportState) (o : LoopOracle), s.outlines ≠ [] →
      s.current_section_index < s.outlines.length →
      (runBody s o).current_section_index = s.current_section_index + 1) ∧
    (∀ (s : ReportState) (os : Nat → LoopOracle), s.outlines ≠ [] →
      s.current_section_index = 0 →
      ∃ sf, runLoop s.outlines.length s os = some (sf, s.outlines.length)) := by
  refine ⟨should_continue_iff, runBody_index, ?_⟩
  intro s os hne h0
  have hlt : s.current_section_index < s.outlines.length := by
    rw [h0]
    exact List.length_pos.mpr hne
  obtain ⟨sf, hrun, -, -, -⟩ := runLoop_exact s.outlines.length s os hne hlt (by omega)
  rw [h0, Nat.sub_zero] at hrun
  exact ⟨sf, hrun⟩

theorem c1_witness :
    ((["A", "B"] : List String) ≠ [] ∧ (0 : Nat) = 0) ∧
    ∃ sf, runLoop 2
        { messages := [], outlines := ["A", "B"], report := [], retrieved_docs := [],
          current_section_index := 0 }
        (fun _ => { sectionDocs := none, reviewConfigOk := true, reviewErr := "x" }) =
      some (sf, 2) :=
  ⟨⟨by decide, rfl⟩,
    c1_section_loop_terminates.2.2
      { messages := [], outlines := ["A", "B"], report := [], retrieved_docs := [],
        current_section_index := 0 }
      (fun _ => { sectionDocs := none, reviewConfigOk := true, reviewErr := "x" })
      (by decide) rfl⟩

/-- Claim C2: after `generate_outline` the section index is 0 (the node's
`except` branch — which every call takes, because the `try` block reads the
missing `state.number_of_parts` field — writes index 0, as would the success
branch of the source); each `review_section` call made in a reachable run
increments the index by exactly 1 (the guard `index < len(outlines)` holds
there, and both the reviewed and the failed body end incrementing); and the
index never exceeds `len(outlines)`: every loop pass preserves
`index ≤ len(outlines)`, and the full pipeline ends with index 1 on the
one-entry outline. -/
theorem c2_section_index_invariant :
    (∀ s : ReportState, (applyReport s (generate_outline s)).current_section_index = 0) ∧
    (∀ (s : ReportState) (configOk : Bool) (e : String), s.outlines ≠ [] →
      s.current_section_index < s.outlines.length →
      (applyReport s (review_section s configOk e)).current_section_index =
        s.current_section_index + 1) ∧
    (∀ (s : ReportState) (o : LoopOracle),
      s.current_section_index ≤ s.outlines.length →
      (runBody s o).current_section_index ≤ (runBody s o).outlines.length) ∧
    (∀ (init : ReportState) (initDocs : Option (List Doc)) (os : Nat → LoopOracle),
      ∃ sf, runReport init initDocs os = some (sf, 1) ∧
        sf.current_section_index = 1 ∧ sf.outlines = fallbackOutline) := by
  refine ⟨fun s => rfl, ?_, ?_, ?_⟩
  · intro s configOk e hne hlt
    rw [applyReport_review s configOk e hne hlt]
  · intro s o hle
    by_cases hne : s.outlines = []
    · rw [runBody_stuck s o (Or.inl hne)]
      exact hle
    · by_cases hlt : s.current_section_index < s.outlines.length
      · rw [runBody_eq s o hne hlt]
        show s.current_section_index + 1 ≤ s.outlines.length
        omega
      · rw [runBody_stuck s o (Or.inr (by omega))]
        exact hle
  · intro init initDocs os
    obtain ⟨sf, hrun, ho, hi, -⟩ := runReport_run init initDocs os
    exact ⟨sf, hrun, hi, ho⟩

theorem c2_witness :
    (applyReport
      { messages := [], outlines := ["A"], report := [], retrieved_docs := [],
        current_section_index := 0 }
      (review_section
        { messages := [], outlines := ["A"], report := [], retrieved_docs := [],
          current_section_index := 0 } true "x")).current_section_index = 0 + 1 ∧
    ∃ sf, runReport
        { messages := [], outlines := [], report := [], retrieved_docs := [],
          current_section_index := 0 } none
        (fun _ => { sectionDocs := none, reviewConfigOk := true, reviewErr := "x" }) =
      some (sf, 1) ∧ sf.current_section_index = 1 ∧ sf.outlines = fallbackOutline :=
  ⟨c2_section_index_invariant.2.1
      { messages := [], outlines := ["A"], report := [], retrieved_docs := [],
        current_section_index := 0 } true "x" (by decide) (by decide),
    c2_section_index_invariant.2.2.2
      { messages := [], outlines := [], report := [], retrieved_docs := [],
        current_section_index := 0 } none
      (fun _ => { sectionDocs := none, reviewConfigOk := true, reviewErr := "x" })⟩

/-- Claim C9 (counterexample): a concrete outline-failure run, fully
evaluated.  The single fallback section is titled `"Report Section"` — a
fixed generic title, different from the error text — and the final state
is exactly the one shown: the error-indicating header text
`"Error in outline generation"` survives in no state field, because
`report_header` is not a `ReportState` field and the merge discards it.
So the fallback section is not titled to indicate the error. -/
theorem c9_counterexample :
    runReport
        { messages := [{ role := .human, id := "h1", content := "report on X" }],
          outlines := [], report := [], retrieved_docs := [], current_section_index := 0 }
        none (fun _ => { sectionDocs := none, reviewConfigOk := true, reviewErr := "x" }) =
      some ({ messages := [{ role := .human, id := "h1", content := "report on X" }],
              outlines := ["Report Section"],
              report := [{ title := "Report Section",
                           content := "Error reviewing section: " ++ "x" }],
              retrieved_docs := [], current_section_index := 1 }, 1) ∧
    "Report Section" ≠ "Error in outline generation" := by
  exact ⟨by decide, by decide⟩

/-- Claim C9 (amended): when outline generation fails, `generate_outline`
substitutes a single fallback section titled `"Report Section"`, still with
`current_section_index = 0` (the error indication exists only in the
returned `report_header` text, which is not a `ReportState` field and is
discarded by the merge), and the report pipeline still runs to completion,
producing a report with exactly 1 section. -/
theorem c9_outline_fallback_completes :
    (∀ s : ReportState, generate_outline s =
      { outlines := some fallbackOutline, current_section_index := some 0 }) ∧
    fallbackOutline = ["Report Section"] ∧
    (∀ (init : ReportState) (initDocs : Option (List Doc)) (os : Nat → LoopOracle),
      init.report = [] →
      ∃ sf, runReport init initDocs os = some (sf, 1) ∧
        sf.report.length = 1 ∧ sf.outlines = fallbackOutline) := by
  refine ⟨fun s => rfl, rfl, ?_⟩
  intro init initDocs os hrep
  obtain ⟨sf, hrun, ho, -, hr⟩ := runReport_run init initDocs os
  exact ⟨sf, hrun, by rw [hr, hrep]; rfl, ho⟩

theorem c9_witness :
    (([] : List ReportSection) = [] ∧ True) ∧
    ∃ sf, runReport
        { messages := [{ role := .human, id := "h1", content := "report on X" }],
          outlines := [], report := [], retrieved_docs := [], current_section_index := 0 }
        none (fun _ => { sectionDocs := none, reviewConfigOk := true, reviewErr := "x" }) =
      some (sf, 1) ∧ sf.report.length = 1 ∧ sf.outlines = fallbackOutline :=
  ⟨⟨rfl, trivial⟩,
    c9_outline_fallback_completes.2.2
      { messages := [{ role := .human, id := "h1", content := "report on X" }],
        outlines := [], report := [], retrieved_docs := [], current_section_index := 0 }
      none (fun _ => { sectionDocs := none, reviewConfigOk := true, reviewErr := "x" }) rfl⟩

/-- Claim C3: every `respond` invocation appends exactly one assistant
message (assuming the new message's id is fresh, as langchain message ids
are) and clears `query` and `retrieved_docs`; when the model call fails
(`o = none`), the single appended message is the fixed apology message, and
`query` and `retrieved_docs` are still cleared. -/
theorem c3_respond_appends_one :
    ∀ (s : RetrievalState) (o : Option (String × String)) (fid : String),
      (∀ x ∈ s.messages, x.id ≠ (match o with | some p => p.1 | none => fid)) →
      ∃ m : Message,
        applyRetrieval s (respond s o fid) =
          { messages := s.messages ++ [m], query := "", retrieved_docs := .docs [],
            summary := s.summary } ∧
        m.role = .assistant ∧
        (o = none → m.content = apologyText) := by
  intro s o fid hfresh
  cases o with
  | none =>
    refine ⟨{ role := .assistant, id := fid, content := apologyText }, ?_, rfl, fun _ => rfl⟩
    have hmsg := add_messages_single_fresh s.messages
      { role := .assistant, id := fid, content := apologyText } (by simpa using hfresh)
    simp only [applyRetrieval, respond, Option.getD_some, Option.getD_none, hmsg]
  | some p =>
    refine ⟨{ role := .assistant, id := p.1, content := p.2 }, ?_, rfl,
      fun h => absurd h (Option.some_ne_none p)⟩
    have hmsg := add_messages_single_fresh s.messages
      { role := .assistant, id := p.1, content := p.2 } (by simpa using hfresh)
    simp only [applyRetrieval, respond, Option.getD_some, Option.getD_none, hmsg]

theorem c3_witness :
    (∀ x ∈ [Message.mk .human "h1" "hi"], x.id ≠ "a1") ∧
    ∃ m : Message,
      applyRetrieval
          { messages := [{ role := .human, id := "h1", content := "hi" }], query := "q",
            retrieved_docs := .docs [], summary := "" }
          (respond
            { messages := [{ role := .human, id := "h1", content := "hi" }], query := "q",
              retrieved_docs := .docs [], summary := "" } none "a1") =
        { messages := [{ role := .human, id := "h1", content := "hi" }] ++ [m], query := "",
          retrieved_docs := .docs [], summary := "" } ∧
      m.role = .assistant ∧ (none = (none : Option (String × String)) → m.content = apologyText) :=
  ⟨by decide,
    c3_respond_appends_one
      { messages := [{ role := .human, id := "h1", content := "hi" }], query := "q",
        retrieved_docs := .docs [], summary := "" } none "a1" (by decide)⟩

/-- Claim C5: `should_summarize` is a pure function of the conversation
state that answers `summarize_conversation` exactly when the number of
messages is a multiple of 6, and halts otherwise. -/
theorem c5_should_summarize_iff :
    ∀ s : RetrievalState,
      (should_summarize s = .summarize_conversation ↔ s.messages.length % 6 = 0) ∧
      (should_summarize s = .halt ↔ s.messages.length % 6 ≠ 0) := by
  intro s
  unfold should_summarize
  constructor <;> split <;> simp_all

theorem coerceItem_enumFrom (ids : Nat → String) (ds : List Doc) :
    ∀ n, (List.enumFrom n (ds.map .docv)).map (fun p => coerceItem ids p.1 p.2) = ds := by
  induction ds with
  | nil => intro n; rfl
  | cons d rest ih =>
    intro n
    show ((n, DocItem.docv d) :: List.enumFrom (n + 1) (rest.map DocItem.docv)).map
        (fun p => coerceItem ids p.1 p.2) = d :: rest
    rw [List.map_cons, ih (n + 1)]
    rfl

/-- Claim C4 (counterexample): the docs reducer applied to a prior
collection of one document and a newly assigned one-document list does not
extend the prior collection — the claimed value `prior ++ coerced new` is
not the result. -/
theorem c4_counterexample :
    reduce_docs (some [{ page_content := "A", metadata := [] }])
        (.listval [.docv { page_content := "B", metadata := [] }]) (fun _ => "u") ≠
      [{ page_content := "A", metadata := [] }, { page_content := "B", metadata := [] }] := by
  decide

/-- Claim C4 (amended): for the docs-field reducer of the index state,
assigning a list REPLACES the collection with the coerced new items: the
result is independent of the prior contents, and for a list of documents it
is exactly those documents, the prior ones being discarded. -/
theorem c4_list_replaces :
    (∀ (e1 e2 : List Doc) (l : List DocItem) (ids : Nat → String),
      reduce_docs (some e1) (.listval l) ids = reduce_docs (some e2) (.listval l) ids) ∧
    (∀ (e : Option (List Doc)) (ds : List Doc) (ids : Nat → String),
      reduce_docs e (.listval (ds.map .docv)) ids = ds) := by
  constructor
  · intro e1 e2 l ids
    rfl
  · intro e ds ids
    simp only [reduce_docs, List.enum]
    exact coerceItem_enumFrom ids ds 0

/-- Claim C7 (counterexample): a successfully parsed file whose loader
returned a document without metadata (the vision loader attaches none) and
whose content splits into two chunks yields a second chunk with empty
metadata: not every emitted chunk is tagged with its source file. -/
theorem c7_counterexample :
    processChunks "a.pdf"
        (split_documents (fun c => [c.take 2, c.drop 2])
          [{ page_content := "xxyy", metadata := [] }]) =
      some [{ page_content := "xx", metadata := [("source", "a.pdf")] },
        { page_content := "yy", metadata := [] }] ∧
    ¬ ∀ d ∈ [Doc.mk "xx" [("source", "a.pdf")], Doc.mk "yy" []],
        ("source", "a.pdf") ∈ d.metadata := by
  constructor
  · rfl
  · decide

/-- Claim C7 (amended): `parse_pdfs` re-tags only the FIRST chunk of each
successfully parsed file with `{source: file}`; the remaining chunks keep
the metadata copied from the loaded document, so every chunk identifies its
source file exactly when the loader itself recorded the source in the
loaded document's metadata (the local PyMuPDF loader does, the vision
loader records none). -/
theorem c7_first_chunk_tagged :
    (∀ (file : String) (chunks out : List Doc),
      processChunks file chunks = some out →
      out.head? = chunks.head?.map (fun c => { c with metadata := [("source", file)] }) ∧
      out.tail = chunks.tail) ∧
    (∀ (split : String → List String) (docs : List Doc) (file : String) (out : List Doc),
      (∀ d ∈ docs, ("source", file) ∈ d.metadata) →
      processChunks file (split_documents split docs) = some out →
      ∀ c ∈ out, ("source", file) ∈ c.metadata) := by
  constructor
  · intro file chunks out h
    cases chunks with
    | nil => exact absurd h (by simp [processChunks])
    | cons c0 rest =>
      rw [processChunks] at h
      cases h
      exact ⟨rfl, rfl⟩
  · intro split docs file out hsrc h
    have hsplit : ∀ c ∈ split_documents split docs, ("source", file) ∈ c.metadata := by
      intro c hc
      simp only [split_documents, List.mem_flatMap, List.mem_map] at hc
      obtain ⟨d, hd, cc, -, hcc⟩ := hc
      rw [← hcc]
      exact hsrc d hd
    cases hch : split_documents split docs with
    | nil => rw [hch, processChunks] at h; exact absurd h (by simp)
    | cons c0 rest =>
      rw [hch, processChunks] at h
      cases h
      intro c hc
      rcases List.mem_cons.mp hc with hc0 | hcr
      · rw [hc0]
        simp
      · exact hsplit c (by rw [hch]; exact List.mem_cons_of_mem c0 hcr)

theorem c7_amended_witness :
    ((∀ d ∈ [Doc.mk "xxyy" [("source", "a.pdf")]], ("source", "a.pdf") ∈ d.metadata) ∧
      processChunks "a.pdf"
          (split_documents (fun c => [c.take 2, c.drop 2])
            [{ page_content := "xxyy", metadata := [("source", "a.pdf")] }]) =
        some [{ page_content := "xx", metadata := [("source", "a.pdf")] },
          { page_content := "yy", metadata := [("source", "a.pdf")] }]) ∧
    ∀ c ∈ [Doc.mk "xx" [("source", "a.pdf")], Doc.mk "yy" [("source", "a.pdf")]],
      ("source", "a.pdf") ∈ c.metadata :=
  ⟨⟨by decide, rfl⟩,
    c7_first_chunk_tagged.2 (fun c => [c.take 2, c.drop 2])
      [{ page_content := "xxyy", metadata := [("source", "a.pdf")] }] "a.pdf"
      [{ page_content := "xx", metadata := [("source", "a.pdf")] },
        { page_content := "yy", metadata := [("source", "a.pdf")] }]
      (by decide) rfl⟩

/-- Claim C8: `index_docs` returns the docs-clear sentinel `"delete"` only
when every batch write succeeded; any batch-write failure makes it re-raise
(the run aborts with an error, and no sentinel is returned). -/
theorem c8_index_write_fatal :
    ∀ (docs : List Doc) (write : Nat → WriteOutcome),
      (index_docs true docs write = .ok (.strval "delete") ↔
        ∀ j, j < (make_batch docs 20).length → write j = .ok) ∧
      (∀ u, index_docs true docs write = .ok u → u = .strval "delete") ∧
      ((∃ j, j < (make_batch docs 20).length ∧ write j ≠ .ok) →
        ∃ m, index_docs true docs write = .error m) := by
  intro docs write
  have hiff := addBatches_ok_iff write (make_batch docs 20) 0
  simp only [Nat.zero_add] at hiff
  refine ⟨?_, ?_, ?_⟩
  · rw [index_docs]
    simp only [Bool.not_true, Bool.false_eq_true, if_false]
    constructor
    · intro h
      cases hab : addBatches write 0 (make_batch docs 20) with
      | ok u => exact hiff.mp (by rw [hab])
      | error m => rw [hab] at h; exact absurd h (by simp)
    · intro h
      rw [hiff.mpr h]
  · intro u h
    rw [index_docs] at h
    simp only [Bool.not_true, Bool.false_eq_true, if_false] at h
    cases hab : addBatches write 0 (make_batch docs 20) with
    | ok v => rw [hab] at h; simpa using h.symm
    | error m => rw [hab] at h; exact absurd h (by simp)
  · rintro ⟨j, hj, hjw⟩
    rw [index_docs]
    simp only [Bool.not_true, Bool.false_eq_true, if_false]
    cases hab : addBatches write 0 (make_batch docs 20) with
    | ok u => exact absurd (hiff.mp (by rw [hab]) j hj) hjw
    | error m => exact ⟨m, rfl⟩

theorem c8_witness :
    ((1 : Nat) < (make_batch (List.replicate 21 (Doc.mk "c" [])) 20).length ∧
      (fun j => if j = 0 then WriteOutcome.ok else .err "boom") 1 ≠ .ok) ∧
    ∃ m, index_docs true (List.replicate 21 (Doc.mk "c" []))
        (fun j => if j = 0 then WriteOutcome.ok else .err "boom") = .error m :=
  ⟨⟨by decide, by decide⟩,
    (c8_index_write_fatal (List.replicate 21 (Doc.mk "c" []))
      (fun j => if j = 0 then WriteOutcome.ok else .err "boom")).2.2
      ⟨1, by decide, by decide⟩⟩

/-- Claim C10: when the input path does not name an existing directory,
`parse_pdfs` raises `FileNotFoundError` and the ingestion run aborts with
no chunks produced; when it does, one file's load failure never aborts the
run — the failing file is simply skipped, the result being the same as if
the file had not been listed. -/
theorem c10_missing_dir_aborts :
    ∀ (path : String) (fs : FileSystem) (env : ParseEnv),
      (fs.isDir = false →
        parse_pdfs path fs env = .error (.fileNotFound ("Directory not found: " ++ path))) ∧
      (fs.isDir = true → ∃ docs, parse_pdfs path fs env = .ok docs) ∧
      (∀ (f m : String) (l1 l2 : List String), fs.isDir = true → env.load f = .error m →
        parse_pdfs path { fs with pdfFiles := l1 ++ f :: l2 } env =
          parse_pdfs path { fs with pdfFiles := l1 ++ l2 } env) := by
  intro path fs env
  refine ⟨?_, ?_, ?_⟩
  · intro h
    rw [parse_pdfs, h]
    rfl
  · intro h
    rw [parse_pdfs, h]
    exact ⟨_, rfl⟩
  · intro f m l1 l2 hdir hload
    show parse_pdfs path { isDir := fs.isDir, pdfFiles := l1 ++ f :: l2 } env = _
    rw [parse_pdfs, parse_pdfs, hdir]
    by_cases hmem : f ∈ env.existingSources
    · simp [remove_duplicates, List.filter_append, List.filter_cons, hmem]
    · simp [remove_duplicates, List.filter_append, List.filter_cons, hmem, hload,
        List.flatMap_append, List.flatMap_cons]

theorem c10_witness :
    parse_pdfs "p" { isDir := false, pdfFiles := [] }
        { existingSources := [], load := fun _ => .error "x", split := fun c => [c] } =
      .error (.fileNotFound ("Directory not found: " ++ "p")) ∧
    parse_pdfs "q" { isDir := true, pdfFiles := ["b.pdf"] ++ "a.pdf" :: [] }
        { existingSources := [], load := fun _ => .error "x", split := fun c => [c] } =
      parse_pdfs "q" { isDir := true, pdfFiles := ["b.pdf"] ++ [] }
        { existingSources := [], load := fun _ => .error "x", split := fun c => [c] } :=
  ⟨(c10_missing_dir_aborts "p" { isDir := false, pdfFiles := [] }
      { existingSources := [], load := fun _ => .error "x", split := fun c => [c] }).1 rfl,
    (c10_missing_dir_aborts "q" { isDir := true, pdfFiles := ["b.pdf", "a.pdf"] }
      { existingSources := [], load := fun _ => .error "x", split := fun c => [c] }).2.2
      "a.pdf" "x" ["b.pdf"] [] rfl rfl⟩

/-- Claim C6 (failing run): `rephrase_query` writes the sentinel string
`"delete"` to `retrieved_docs` exactly when the field is truthy, but
`RetrievalState.retrieved_docs` has no reducer annotation, so the channel
replaces on write: starting from a state holding one leftover document, the
field after the rephrase step holds the string `"delete"`, not an empty
document collection. -/
theorem c6_delete_sentinel_persists :
    (applyRetrieval
      { messages := [{ role := .human, id := "h1", content := "hi" }], query := "",
        retrieved_docs := .docs [{ page_content := "d", metadata := [] }], summary := "" }
      (rephrase_query
        { messages := [{ role := .human, id := "h1", content := "hi" }], query := "",
          retrieved_docs := .docs [{ page_content := "d", metadata := [] }], summary := "" }
        (some "q"))).retrieved_docs = .strval "delete" ∧
    ∀ l : List Doc, RDocsVal.strval "delete" ≠ .docs l := by
  constructor
  · rfl
  · intro l
    simp

end Homer
